import Mathlib

/-!
Verification of the pretalx-rt synchronization plugin.

This file gives a shallow embedding of the sync engine of the plugin
(`pretalx_rt/rt_sync.py`, `pretalx_rt/signals.py`, `pretalx_rt/models.py`)
and proves or refutes the specification claims about it.

Remote I/O is modelled by oracles: each remote call either succeeds with a
value or fails with an error, and the embedding records the sequence of
remote calls issued together with the resulting local database state.
Machine time is modelled as integers (seconds); the Django ORM table of
`Ticket` rows is modelled as a list of records, with the uniqueness
constraint of the `OneToOneField submission` made explicit.
-/

namespace PretalxRT

/-! ## Host data read models (pretalx submissions, mails, users) -/

/-- A pretalx user as consumed by the plugin: display name and email. -/
structure UserM where
  name : String
  email : String
deriving DecidableEq, Repr

/-- A pretalx submission as consumed by the plugin. -/
structure SubmissionM where
  id : Nat
  code : String
  title : String
  state : String
  speakers : List UserM
deriving DecidableEq, Repr

/-- One attachment dict of a pretalx mail (`att["name"]` etc.). -/
structure AttachDict where
  name : String
  content : String
  content_type : String
deriving DecidableEq, Repr

/-- A pretalx queued mail as consumed by `add_mail_to_ticket`:
`make_html` and `make_text` are modelled as the two pre-rendered bodies. -/
structure MailM where
  id : Nat
  subject : String
  to_users : List UserM
  attachments : List AttachDict
  bodyHtml : String
  bodyText : String
deriving DecidableEq, Repr

/-- Per-event RT settings (`models.EventSettings`). -/
structure EventSettingsM where
  queue : String
  initial_status : String
  custom_field_id : String
  custom_field_state : String
  is_mail_html : Bool
  sync_interval : Int
deriving DecidableEq, Repr

/-! ## Remote side -/

/-- The RT attachment shape built by `rt.rest2.Attachment(...)`. -/
structure AttachmentM where
  file_name : String
  file_content : String
  file_type : String
deriving DecidableEq, Repr

/-- A remote-call error (transport or authorization failure). -/
inductive RtErr where
  | transport (n : Nat)
deriving DecidableEq, Repr

/-- The fields of a remote ticket snapshotted by `rt.get_ticket` that the
reply and comment protocols read and restore. -/
structure RTSnapshot where
  requestor : List String
  subject : String
  status : String
deriving DecidableEq, Repr

/-- The fields of a remote ticket that `pull` copies into the local row. -/
structure RemoteTicketData where
  subject : String
  status : String
  queueName : String
deriving DecidableEq, Repr

/-- A remote REST call issued by the sync engine, with its arguments.
`editTicket` carries `none` for every keyword argument that a given call
site does not pass. -/
inductive RemoteCall where
  | getTicket (rtId : Nat)
  | editTicket (rtId : Nat) (requestor : Option (List String)) (subject : Option String)
      (status : Option String) (customFields : Option (List (String × String)))
  | reply (rtId : Nat) (content : String) (contentType : String)
      (attachments : List AttachmentM)
  | comment (rtId : Nat) (content : String) (contentType : String)
deriving DecidableEq, Repr

/-- An asynchronous task submitted to the deferred-execution facility. -/
inductive TaskCall where
  | ticketPullTask (eventId : Nat) (ticketId : Nat)
deriving DecidableEq, Repr

/-! ## Local ticket records -/

/-- A `Ticket` model instance as used by `push` and the reply and comment
protocols: its primary key, remote id, and the linked submission object. -/
structure TicketM where
  pk : Nat
  rt_id : Nat
  submission : Option SubmissionM
deriving DecidableEq, Repr

/-- A persisted `Ticket` row of the local mirror table (`models.Ticket`).
`submission` holds the primary key of the linked submission, if any;
`sync_timestamp` is the `DateTimeField(auto_now_add=True)` column. -/
structure TicketRowM where
  rt_id : Nat
  submission : Option Nat
  subject : String
  status : String
  queue : String
  sync_timestamp : Option Int
deriving DecidableEq, Repr

/-! ## Field mapper -/

/-- Embedding of the Python expression `name.replace("@", "(at)")`: for the
single-character pattern `"@"`, Python string replace substitutes every
occurrence of the character. -/
def replaceAtSign (s : String) : String :=
  ⟨s.data.foldr (fun c acc => if c = '@' then '(' :: 'a' :: 't' :: ')' :: acc else c :: acc) []⟩

/-- `RTSync.requestors` / `signals.requestors`: format user information for
the RT requestors field, one string per user. -/
def requestors (users : List UserM) : List String :=
  users.map (fun user => replaceAtSign user.name ++ " <" ++ user.email ++ ">")

/-! ## push -/

/-- `RTSync.push`: push updates from pretalx to the RT ticket. Returns the
remote calls issued and the asynchronous tasks scheduled. -/
def push (settings : EventSettingsM) (eventPk : Nat) (ticket : TicketM) :
    List RemoteCall × List TaskCall :=
  match ticket.submission with
  | none => ([], [])
  | some sub =>
      ([.editTicket ticket.rt_id (some (requestors sub.speakers)) (some sub.title) none
          (some [(settings.custom_field_id, sub.code), (settings.custom_field_state, sub.state)])],
       [.ticketPullTask eventPk ticket.pk])

/-! ## Reply and comment protocols (compensating-action pattern)

`add_mail_to_ticket` and `add_comment_to_ticket` perform a sequence of
remote calls inside a Python `try` block with an unconditional `finally`
restore. Each remote or local persistence step is given an outcome by an
oracle; the embedding returns the issued call trace, the resulting local
database state, and the outcome the caller observes. Python `try/finally`
semantics: the `finally` block always runs; if it raises, its exception
propagates and replaces any exception raised by the `try` body. -/

/-- The persisted local state touched by `add_mail_to_ticket`:
the `sent` column of the mail and the mail ids in `ticket.mails`. -/
structure MailLocalState where
  mailSent : Option Int
  ticketMails : List Nat
deriving DecidableEq, Repr

/-- Outcomes of the individual steps of `add_mail_to_ticket`, chosen by
the environment: `none` means the step succeeds, `some e` that it raises. -/
structure MailOracle where
  getTicket : Except RtErr RTSnapshot
  editErr : Option RtErr
  replyErr : Option RtErr
  mailSaveErr : Option RtErr
  mailsAddErr : Option RtErr
  ticketSaveErr : Option RtErr
  restoreErr : Option RtErr
deriving Repr

/-- Result of a reply or comment protocol run: remote calls issued in
order, final persisted local state, and the outcome seen by the caller. -/
structure CallResult where
  trace : List RemoteCall
  state : MailLocalState
  outcome : Except RtErr Unit
deriving Repr

/-- `RTSync.add_mail_to_ticket`: snapshot the remote ticket, then inside
`try`: edit Requestor/Subject, send the reply with converted attachments,
mark the mail sent and link it; `finally`: restore Requestor/Subject/Status
from the snapshot. -/
def add_mail_to_ticket (settings : EventSettingsM) (ticket : TicketM) (mail : MailM)
    (st : MailLocalState) (tNow : Int) (o : MailOracle) : CallResult :=
  match o.getTicket with
  | .error e => { trace := [.getTicket ticket.rt_id], state := st, outcome := .error e }
  | .ok old =>
      let editCall : RemoteCall :=
        .editTicket ticket.rt_id (some (requestors mail.to_users)) (some mail.subject) none none
      let atts : List AttachmentM := mail.attachments.map (fun att =>
        { file_name := att.name, file_content := att.content, file_type := att.content_type })
      let replyCall : RemoteCall :=
        .reply ticket.rt_id
          (if settings.is_mail_html then mail.bodyHtml else mail.bodyText)
          (if settings.is_mail_html then "text/html" else "text/plain") atts
      let restoreCall : RemoteCall :=
        .editTicket ticket.rt_id (some old.requestor) (some old.subject) (some old.status) none
      let body : List RemoteCall × MailLocalState × Except RtErr Unit :=
        match o.editErr with
        | some e => ([editCall], st, .error e)
        | none =>
          match o.replyErr with
          | some e => ([editCall, replyCall], st, .error e)
          | none =>
            match o.mailSaveErr with
            | some e => ([editCall, replyCall], st, .error e)
            | none =>
              let st1 : MailLocalState := { st with mailSent := some tNow }
              match o.mailsAddErr with
              | some e => ([editCall, replyCall], st1, .error e)
              | none =>
                let st2 : MailLocalState :=
                  { st1 with ticketMails := st1.ticketMails ++ [mail.id] }
                match o.ticketSaveErr with
                | some e => ([editCall, replyCall], st2, .error e)
                | none => ([editCall, replyCall], st2, .ok ())
      { trace := (.getTicket ticket.rt_id :: body.1) ++ [restoreCall],
        state := body.2.1,
        outcome := match o.restoreErr with
                   | some e2 => .error e2
                   | none => body.2.2 }

/-- Step outcomes for `add_comment_to_ticket`. -/
structure CommentOracle where
  getTicket : Except RtErr RTSnapshot
  commentErr : Option RtErr
  restoreErr : Option RtErr
deriving Repr

/-- `RTSync.add_comment_to_ticket`: snapshot the remote ticket, then inside
`try`: post the rich-text rendering of the comment as an internal comment;
`finally`: restore Requestor/Subject/Status from the snapshot. The host
`rich_text` renderer is passed in as an opaque function. -/
def add_comment_to_ticket (ticket : TicketM) (commentText : String)
    (richText : String → String) (o : CommentOracle) :
    List RemoteCall × Except RtErr Unit :=
  match o.getTicket with
  | .error e => ([.getTicket ticket.rt_id], .error e)
  | .ok old =>
      let commentCall : RemoteCall := .comment ticket.rt_id (richText commentText) "text/html"
      let restoreCall : RemoteCall :=
        .editTicket ticket.rt_id (some old.requestor) (some old.subject) (some old.status) none
      let body : List RemoteCall × Except RtErr Unit :=
        match o.commentErr with
        | some e => ([commentCall], .error e)
        | none => ([commentCall], .ok ())
      ((.getTicket ticket.rt_id :: body.1) ++ [restoreCall],
       match o.restoreErr with
       | some e2 => .error e2
       | none => body.2)

/-! ## pull -/

/-- `RTSync.pull`: fetch the remote ticket; on success overwrite the local
subject, status and queue and stamp `sync_timestamp` with the current time,
then save; on a failed fetch the exception propagates before any local
field is assigned. -/
def pull (ticket : TicketRowM) (fetch : Except RtErr RemoteTicketData) (tNow : Int) :
    TicketRowM × Except RtErr Unit :=
  match fetch with
  | .error e => (ticket, .error e)
  | .ok rt =>
      ({ ticket with subject := rt.subject, status := rt.status, queue := rt.queueName,
                     sync_timestamp := some tNow }, .ok ())

/-- Run a sequence of pulls against one ticket row; each element gives the
fetch outcome and the clock reading of that pull. -/
def runPulls (t0 : TicketRowM) (ops : List (Except RtErr RemoteTicketData × Int)) : TicketRowM :=
  ops.foldl (fun t op => (pull t op.1 op.2).1) t0

/-- Whether some pull in the sequence succeeded. -/
def hasSuccessfulPull (ops : List (Except RtErr RemoteTicketData × Int)) : Bool :=
  ops.any (fun op => match op.1 with | .ok _ => true | .error _ => false)

/-! ## Queue reconciliation (sync_queue) -/

/-- A remote ticket as returned by `rt.search(queue)`: its id and its
custom fields, each a name with a list of values. -/
structure RTRemoteTicket where
  id : Nat
  customFields : List (String × List String)
deriving DecidableEq, Repr

/-- `RTSync.get_custom_field`: scan the custom fields; on a name match
return the first value if the value list is non-empty, otherwise keep
scanning; return `none` when the loop finishes without a hit. -/
def get_custom_field (cfs : List (String × List String)) (fieldName : String) : Option String :=
  match cfs with
  | [] => none
  | (n, vs) :: rest =>
      if n = fieldName then
        match vs with
        | v :: _ => some v
        | [] => get_custom_field rest fieldName
      else get_custom_field rest fieldName

/-- Lookup in a Python dict comprehension built from a list, where a later
entry with the same key overrides an earlier one: search from the end. -/
def submissionsByCode (subs : List SubmissionM) (code : String) : Option SubmissionM :=
  subs.reverse.find? (fun s => s.code == code)

/-- Insert into an ordered dict: overriding an existing key keeps its
position, a new key is appended. -/
def dictInsert (d : List (Nat × TicketRowM)) (k : Nat) (v : TicketRowM) :
    List (Nat × TicketRowM) :=
  if d.any (fun p => p.1 == k) then d.map (fun p => if p.1 == k then (k, v) else p)
  else d ++ [(k, v)]

/-- Build an ordered dict from a list, later entries overriding earlier
ones (Python dict-comprehension semantics). -/
def dictOfList (key : TicketRowM → Nat) (xs : List TicketRowM) : List (Nat × TicketRowM) :=
  xs.foldl (fun d x => dictInsert d (key x) x) []

/-- Dict lookup. -/
def dictGet (d : List (Nat × TicketRowM)) (k : Nat) : Option TicketRowM :=
  (d.find? (fun p => p.1 == k)).map (fun p => p.2)

/-- `Ticket.objects.update_or_create(rt_id=..., defaults=...)` on the local
mirror table. Looks the row up by `rt_id`; updates its submission link if
found, otherwise inserts a new row. The `OneToOneField submission` imposes
a uniqueness constraint: writing a submission id held by a different row
raises `IntegrityError`. A new row gets `sync_timestamp` stamped with the
current time because of `DateTimeField(auto_now_add=True)`; an updated row
keeps its stored timestamp. `linkRow` is the per-row form of the
`defaults` update: it relinks the row with the given remote id and leaves
every other row unchanged. -/
def linkRow (rtId : Nat) (sub : Nat) (r : TicketRowM) : TicketRowM :=
  if r.rt_id == rtId then { r with submission := some sub } else r

def update_or_create (db : List TicketRowM) (rtId : Nat) (sub : Nat) (tNow : Int) :
    Except String (List TicketRowM × Bool) :=
  match db.filter (fun r => r.rt_id == rtId) with
  | [] =>
      if db.any (fun r => r.submission == some sub) then
        .error "IntegrityError"
      else
        .ok (db ++ [{ rt_id := rtId, submission := some sub, subject := "", status := "",
                      queue := "", sync_timestamp := some tNow }], true)
  | [_] =>
      if db.any (fun r => !(r.rt_id == rtId) && r.submission == some sub) then
        .error "IntegrityError"
      else
        .ok (db.map (linkRow rtId sub), false)
  | _ => .error "MultipleObjectsReturned"

/-- The log lines emitted by one reconciliation pass. -/
inductive SyncLog where
  | skipNoSubmission (rtId : Nat)
  | warnSubmissionNotFound (rtId : Nat) (code : String)
  | debugAlreadyLinked (rtId : Nat) (code : String)
  | warnConflict (rtId : Nat) (code : String) (linkedRt : Nat)
deriving DecidableEq, Repr

/-- The evolving state of a reconciliation pass: the live ticket table, the
log, the created/updated counters, the remote ids pushed, and a pending
exception (an `IntegrityError` escaping `update_or_create` aborts the
pass). -/
structure SyncState where
  db : List TicketRowM
  logs : List SyncLog
  newTickets : Nat
  updatedTickets : Nat
  pushed : List Nat
  err : Option String
deriving DecidableEq, Repr

/-- One iteration of the `sync_queue` loop over a remote ticket.
`snapshotLink` is the `existing_tickets_by_submission` dict computed once
before the loop: it maps a submission id to its linked row as of the start
of the pass. -/
def syncQueueStep (settings : EventSettingsM) (subs : List SubmissionM)
    (snapshotLink : Nat → Option TicketRowM) (tNow : Int)
    (st : SyncState) (rt : RTRemoteTicket) : SyncState :=
  if st.err.isSome then st
  else
    match get_custom_field rt.customFields settings.custom_field_id with
    | none => { st with logs := st.logs ++ [.skipNoSubmission rt.id] }
    | some pid =>
        if pid = "" then { st with logs := st.logs ++ [.skipNoSubmission rt.id] }
        else
          match submissionsByCode subs pid with
          | none => { st with logs := st.logs ++ [.warnSubmissionNotFound rt.id pid] }
          | some sub =>
              match snapshotLink sub.id with
              | some linked =>
                  if linked.rt_id == rt.id then
                    { st with logs := st.logs ++ [.debugAlreadyLinked rt.id pid] }
                  else
                    { st with logs := st.logs ++ [.warnConflict rt.id pid linked.rt_id] }
              | none =>
                  match update_or_create st.db rt.id sub.id tNow with
                  | .error e => { st with err := some e }
                  | .ok (db2, created) =>
                      { st with
                        db := db2
                        newTickets := st.newTickets + (if created then 1 else 0)
                        updatedTickets := st.updatedTickets + (if created then 0 else 1)
                        pushed := st.pushed ++ [rt.id] }

/-- `RTSync.sync_queue`: compute the three lookup snapshots once, then fold
the loop body over the remote tickets of the queue.
`existing_tickets_by_submission` is built from the values of the
`existing_tickets_by_rt` dict, keeping only rows with a submission link. -/
def sync_queue (settings : EventSettingsM) (subs : List SubmissionM)
    (db0 : List TicketRowM) (remote : List RTRemoteTicket) (tNow : Int) : SyncState :=
  let byRt := dictOfList (fun t => t.rt_id) db0
  let linkedRows := (byRt.map (fun p => p.2)).filter (fun t => t.submission.isSome)
  let bySub := dictOfList (fun t => t.submission.getD 0) linkedRows
  remote.foldl (syncQueueStep settings subs (fun sid => dictGet bySub sid) tNow)
    { db := db0, logs := [], newTickets := 0, updatedTickets := 0, pushed := [], err := none }

/-- The linkage invariant of the mirror table: no submission is linked by
rows with two distinct remote ids. -/
def noDupLinks (db : List TicketRowM) : Prop :=
  ∀ r1 ∈ db, ∀ r2 ∈ db, ∀ s : Nat,
    r1.submission = some s → r2.submission = some s → r1.rt_id = r2.rt_id

/-! ## Periodic reconciliation (signals.pretalx_rt_periodic_pull) -/

/-- A ticket as seen by the periodic pass, together with the relevant
configuration of its owning event: whether the plugin is enabled and the
minimum sync interval in minutes. `linked` records whether the row has a
submission (the queryset excludes `submission__isnull=True`). -/
structure PeriodicTicket where
  rt_id : Nat
  linked : Bool
  sync_timestamp : Option Int
  eventEnabled : Bool
  syncIntervalMinutes : Int
deriving DecidableEq, Repr

/-- `signals.needs_sync`: a ticket needs a pull when it has never been
stamped, or when more than the configured interval has elapsed since its
last sync. Times are in seconds. -/
def needs_sync (nowv : Int) (t : PeriodicTicket) : Bool :=
  match t.sync_timestamp with
  | none => true
  | some ts => nowv - ts > 60 * t.syncIntervalMinutes

/-- The `order_by("sync_timestamp")` comparison: ascending timestamps with
null rows first. -/
def tsLe (a b : PeriodicTicket) : Bool :=
  match a.sync_timestamp, b.sync_timestamp with
  | none, _ => true
  | some _, none => false
  | some x, some y => x ≤ y

/-- What the periodic pass did with one ticket it iterated over. The
`Int` argument is the `now()` reading that `needs_sync` compared against
the stored timestamp. -/
inductive PullDecision where
  | pulledNull
  | pulledStale (nowv : Int)
  | skippedFresh (nowv : Int)
  | skippedDisabled
deriving DecidableEq, Repr

/-- The loop of `pretalx_rt_periodic_pull` over the ordered tickets.
`clock` yields the successive `now()` readings, `k` is the index of the
next reading. Each iteration first checks the one-minute budget against
the start time and returns immediately when it is exceeded, leaving the
remaining tickets untouched (returned unprocessed, with the tripping
reading); otherwise it skips tickets of disabled events and pulls exactly
the tickets for which `needs_sync` holds. A pull consumes one extra clock
reading (the `now()` stamped by the pull itself). -/
def runPeriodic (clock : Nat → Int) (start : Int) :
    List PeriodicTicket → Nat →
    List (PeriodicTicket × PullDecision) × List PeriodicTicket × Option Int
  | [], _ => ([], [], none)
  | t :: rest, k =>
      let nowv := clock k
      if nowv - start > 60 then
        ([], t :: rest, some nowv)
      else if t.eventEnabled then
        match t.sync_timestamp with
        | none =>
            let r := runPeriodic clock start rest (k + 2)
            ((t, .pulledNull) :: r.1, r.2)
        | some ts =>
            let nowv2 := clock (k + 1)
            if nowv2 - ts > 60 * t.syncIntervalMinutes then
              let r := runPeriodic clock start rest (k + 3)
              ((t, .pulledStale nowv2) :: r.1, r.2)
            else
              let r := runPeriodic clock start rest (k + 2)
              ((t, .skippedFresh nowv2) :: r.1, r.2)
      else
        let r := runPeriodic clock start rest (k + 1)
        ((t, .skippedDisabled) :: r.1, r.2)

/-- The staleness comparison is total. -/
instance : IsTotal PeriodicTicket (fun a b => tsLe a b = true) := ⟨by
  intro a b
  cases ha : a.sync_timestamp with
  | none => simp [tsLe, ha]
  | some x =>
      cases hb : b.sync_timestamp with
      | none => simp [tsLe, ha, hb]
      | some y =>
          simp [tsLe, ha, hb]
          exact Int.le_total x y⟩

/-- The staleness comparison is transitive. -/
instance : IsTrans PeriodicTicket (fun a b => tsLe a b = true) := ⟨by
  intro a b c hab hbc
  cases ha : a.sync_timestamp <;> cases hb : b.sync_timestamp <;> cases hc : c.sync_timestamp
  all_goals simp [tsLe, ha, hb, hc] at hab hbc ⊢
  all_goals omega⟩

/-- The iteration order of the queryset: linked tickets sorted by
ascending `sync_timestamp`. -/
def sortByStaleness (db : List PeriodicTicket) : List PeriodicTicket :=
  List.insertionSort (fun a b => tsLe a b = true) (db.filter (fun t => t.linked))

/-- `signals.pretalx_rt_periodic_pull`: read the start time, then iterate
the linked tickets ordered by staleness under the one-minute budget. -/
def pretalx_rt_periodic_pull (clock : Nat → Int) (db : List PeriodicTicket) :
    List (PeriodicTicket × PullDecision) × List PeriodicTicket × Option Int :=
  runPeriodic clock (clock 0) (sortByStaleness db) 1

/-! ## Concrete instances used by witnesses and counterexamples -/

/-- Event settings used in concrete runs. -/
def settingsX : EventSettingsM :=
  { queue := "Q", initial_status := "new", custom_field_id := "Pretalx ID",
    custom_field_state := "Pretalx State", is_mail_html := true, sync_interval := 30 }

/-- A local submission with code A. -/
def subA : SubmissionM :=
  { id := 1, code := "A", title := "T1", state := "submitted", speakers := [] }

/-- Two local submissions with codes A and B. -/
def subsX : List SubmissionM :=
  [subA, { id := 2, code := "B", title := "T2", state := "submitted", speakers := [] }]

/-- A local row linking remote ticket 5 to submission 2. -/
def rowX : TicketRowM :=
  { rt_id := 5, submission := some 2, subject := "s", status := "open", queue := "Q",
    sync_timestamp := some 0 }

/-- A local row linking remote ticket 9 to submission 1. -/
def rowY : TicketRowM :=
  { rt_id := 9, submission := some 1, subject := "", status := "", queue := "",
    sync_timestamp := some 0 }

/-- A remote ticket, id 5, whose submission-code custom field holds A. -/
def rtX : RTRemoteTicket := { id := 5, customFields := [("Pretalx ID", ["A"])] }

/-- A one-element remote queue holding `rtX`. -/
def remX : List RTRemoteTicket := [rtX]

/-- A start-of-pass snapshot in which submission 1 is linked to `rowY`. -/
def snapW : Nat → Option TicketRowM := fun sid => if sid == 1 then some rowY else none

/-- A pass state whose table holds only `rowY`. -/
def stY : SyncState :=
  { db := [rowY], logs := [], newTickets := 0, updatedTickets := 0, pushed := [], err := none }

/-- A ticket instance with no linked submission. -/
def tNoSub : TicketM := { pk := 1, rt_id := 10, submission := none }

/-- A submission with one speaker whose display name contains an at sign. -/
def sub0 : SubmissionM :=
  { id := 1, code := "A", title := "T1", state := "submitted",
    speakers := [{ name := "A@B", email := "a@b.com" }] }

/-- A ticket instance linked to `sub0`. -/
def tSub : TicketM := { pk := 2, rt_id := 11, submission := some sub0 }

/-- A snapshot of remote ticket fields taken before a reply or comment. -/
def old0 : RTSnapshot := { requestor := ["r <r@x>"], subject := "Old", status := "open" }

/-- A pretalx mail used in concrete protocol runs. -/
def mail0 : MailM :=
  { id := 7, subject := "Hi", to_users := [{ name := "N", email := "n@x" }],
    attachments := [], bodyHtml := "<p>hi</p>", bodyText := "hi" }

/-- An empty persisted local mail state. -/
def st0 : MailLocalState := { mailSent := none, ticketMails := [] }

/-- An oracle under which every step of `add_mail_to_ticket` succeeds. -/
def oracleOkM : MailOracle :=
  { getTicket := .ok old0, editErr := none, replyErr := none, mailSaveErr := none,
    mailsAddErr := none, ticketSaveErr := none, restoreErr := none }

/-- An oracle under which every step of `add_comment_to_ticket` succeeds. -/
def oracleOkC : CommentOracle :=
  { getTicket := .ok old0, commentErr := none, restoreErr := none }

/-- An oracle where the reply raises `transport 1` and the restoration
edit raises `transport 2`. -/
def oracleMask : MailOracle :=
  { getTicket := .ok old0, editErr := none, replyErr := some (.transport 1),
    mailSaveErr := none, mailsAddErr := none, ticketSaveErr := none,
    restoreErr := some (.transport 2) }

/-- An oracle where only the reply raises (`transport 1`). -/
def oracleReplyFail : MailOracle :=
  { getTicket := .ok old0, editErr := none, replyErr := some (.transport 1),
    mailSaveErr := none, mailsAddErr := none, ticketSaveErr := none, restoreErr := none }

/-- An oracle where only the initial edit raises (`transport 9`). -/
def oracleEditFail : MailOracle :=
  { getTicket := .ok old0, editErr := some (.transport 9), replyErr := none,
    mailSaveErr := none, mailsAddErr := none, ticketSaveErr := none, restoreErr := none }

/-- An oracle where only the comment step raises (`transport 3`). -/
def oracleCommentFail : CommentOracle :=
  { getTicket := .ok old0, commentErr := some (.transport 3), restoreErr := none }

/-- An oracle where the comment step raises and the restoration edit
raises `transport 4`. -/
def oracleCommentMask : CommentOracle :=
  { getTicket := .ok old0, commentErr := some (.transport 3),
    restoreErr := some (.transport 4) }

/-- A clock that always reads zero. -/
def clock0 : Nat → Int := fun _ => 0

/-- A clock whose first reading is zero and whose later readings are 100
seconds — past the one-minute budget. -/
def clockW : Nat → Int := fun k => if k = 0 then 0 else 100

/-- A linked, enabled, never-synced ticket for the periodic pass. -/
def tickW : PeriodicTicket :=
  { rt_id := 1, linked := true, sync_timestamp := none, eventEnabled := true,
    syncIntervalMinutes := 30 }

end PretalxRT

namespace PretalxRT

/-! ## Helper lemmas -/

/-- The character-wise replacement of the at sign never leaves one behind. -/
theorem foldr_no_at : ∀ (l : List Char),
    '@' ∉ l.foldr (fun c acc => if c = '@' then '(' :: 'a' :: 't' :: ')' :: acc else c :: acc) []
  | [] => by simp
  | c :: rest => by
      rw [List.foldr_cons]
      by_cases hc : c = '@'
      · subst hc
        rw [if_pos rfl]
        intro h
        rcases List.mem_cons.mp h with h1 | h
        · exact absurd h1 (by decide)
        rcases List.mem_cons.mp h with h1 | h
        · exact absurd h1 (by decide)
        rcases List.mem_cons.mp h with h1 | h
        · exact absurd h1 (by decide)
        rcases List.mem_cons.mp h with h1 | h
        · exact absurd h1 (by decide)
        exact foldr_no_at rest h
      · rw [if_neg hc]
        intro h
        rcases List.mem_cons.mp h with h1 | h
        · exact hc h1.symm
        · exact foldr_no_at rest h

/-- No at sign survives `replaceAtSign`. -/
theorem replaceAtSign_no_at (s : String) : '@' ∉ (replaceAtSign s).data :=
  foldr_no_at s.data

/-- A row whose `sync_timestamp` is stamped stays stamped under any
further pulls. -/
theorem runPulls_stamped :
    ∀ (ops : List (Except RtErr RemoteTicketData × Int)) (t : TicketRowM) (x : Int),
      t.sync_timestamp = some x → ∃ y, (runPulls t ops).sync_timestamp = some y
  | [], t, x, h => ⟨x, h⟩
  | (f, n) :: rest, t, x, h => by
      cases f with
      | error e => exact runPulls_stamped rest t x h
      | ok rt => exact runPulls_stamped rest _ n rfl

/-- `linkRow` never changes the remote id of a row. -/
theorem linkRow_rt (rtId sub : Nat) (r : TicketRowM) : (linkRow rtId sub r).rt_id = r.rt_id := by
  by_cases h : r.rt_id == rtId <;> simp [linkRow, h]

/-- `linkRow` leaves rows with a different remote id unchanged. -/
theorem linkRow_of_ne {rtId : Nat} {r : TicketRowM} (sub : Nat)
    (h : (r.rt_id == rtId) = false) : linkRow rtId sub r = r := by
  simp [linkRow, h]

/-- Applying `linkRow` twice is the same as applying it once. -/
theorem linkRow_idem (rtId sub : Nat) (r : TicketRowM) :
    linkRow rtId sub (linkRow rtId sub r) = linkRow rtId sub r := by
  by_cases h : r.rt_id == rtId <;> simp [linkRow, h]

/-- Re-running a successful upsert with the same arguments returns the
same table and reports an update, not a creation. -/
theorem uoc_idempotent :
    ∀ (db : List TicketRowM) (rtId sub : Nat) (t t2 : Int) (db2 : List TicketRowM) (c : Bool),
      update_or_create db rtId sub t = .ok (db2, c) →
      update_or_create db2 rtId sub t2 = .ok (db2, false) := by
  intro db rtId sub t t2 db2 c h
  unfold update_or_create at h
  cases hfil : db.filter (fun r => r.rt_id == rtId) with
  | nil =>
      rw [hfil] at h
      by_cases hany : db.any (fun r => r.submission == some sub) = true
      · rw [if_pos hany] at h
        simp at h
      · rw [if_neg hany] at h
        simp only [Except.ok.injEq, Prod.mk.injEq] at h
        obtain ⟨hdb, hc⟩ := h
        subst hdb
        have hnolink : ∀ r ∈ db, (r.submission == some sub) = false := by
          intro r hr
          have hs := List.any_eq_false.mp (Bool.not_eq_true _ ▸ hany) r hr
          exact Bool.not_eq_true _ ▸ hs
        have hnort : ∀ r ∈ db, (r.rt_id == rtId) = false := by
          intro r hr
          have hs := List.filter_eq_nil_iff.mp hfil r hr
          exact Bool.not_eq_true _ ▸ hs
        have h1 : (db.any (fun r => !(r.rt_id == rtId) && r.submission == some sub)) = false := by
          apply List.any_eq_false.mpr
          intro r hr habs
          rw [Bool.and_eq_true, hnolink r hr] at habs
          exact absurd habs.2 (by simp)
        have hmapdb : db.map (linkRow rtId sub) = db := by
          rw [List.map_congr_left (fun r hr => linkRow_of_ne sub (hnort r hr))]
          exact List.map_id db
        simp [update_or_create, hfil, h1, hmapdb, linkRow]
  | cons r0 tail =>
      cases tail with
      | nil =>
          rw [hfil] at h
          by_cases hany : db.any (fun r => !(r.rt_id == rtId) && r.submission == some sub) = true
          · rw [if_pos hany] at h
            simp at h
          · rw [if_neg hany] at h
            simp only [Except.ok.injEq, Prod.mk.injEq] at h
            obtain ⟨hdb, hc⟩ := h
            subst hdb
            have hcompeq : ((fun r : TicketRowM => r.rt_id == rtId) ∘ (linkRow rtId sub)) =
                (fun r : TicketRowM => r.rt_id == rtId) := by
              funext r
              simp only [Function.comp_apply, linkRow_rt]
            have hfil2 : ((db.map (linkRow rtId sub)).filter (fun r => r.rt_id == rtId)) =
                [linkRow rtId sub r0] := by
              rw [List.filter_map, hcompeq, hfil]
              rfl
            have hany2 : ((db.map (linkRow rtId sub)).any
                (fun r => !(r.rt_id == rtId) && r.submission == some sub)) = false := by
              rw [List.any_map]
              apply List.any_eq_false.mpr
              intro r hr habs
              by_cases hp : (r.rt_id == rtId) = true
              · rw [Function.comp_apply, Bool.and_eq_true] at habs
                have h1 := habs.1
                rw [linkRow_rt, hp] at h1
                exact absurd h1 (by simp)
              · have hpf : (r.rt_id == rtId) = false := Bool.not_eq_true _ ▸ hp
                rw [Function.comp_apply, linkRow_of_ne sub hpf] at habs
                have hq := List.any_eq_false.mp (Bool.not_eq_true _ ▸ hany) r hr
                exact hq habs
            simp only [update_or_create, hfil2, hany2, Bool.false_eq_true, if_false,
              List.map_map, Except.ok.injEq, Prod.mk.injEq]
            exact ⟨List.map_congr_left (fun r _ => linkRow_idem rtId sub r), trivial⟩
      | cons r1 tail2 =>
          rw [hfil] at h
          simp at h

/-- A successful upsert leaves the table with a row carrying the given
remote id linked to the given submission. -/
theorem uoc_links :
    ∀ (db : List TicketRowM) (rtId sub : Nat) (t : Int) (db2 : List TicketRowM) (c : Bool),
      update_or_create db rtId sub t = .ok (db2, c) →
      ∃ r ∈ db2, r.rt_id = rtId ∧ r.submission = some sub := by
  intro db rtId sub t db2 c h
  unfold update_or_create at h
  cases hfil : db.filter (fun r => r.rt_id == rtId) with
  | nil =>
      rw [hfil] at h
      by_cases hany : db.any (fun r => r.submission == some sub) = true
      · rw [if_pos hany] at h
        simp at h
      · rw [if_neg hany] at h
        simp only [Except.ok.injEq, Prod.mk.injEq] at h
        obtain ⟨hdb, hc⟩ := h
        subst hdb
        refine ⟨{ rt_id := rtId, submission := some sub, subject := "", status := "",
                  queue := "", sync_timestamp := some t }, ?_, rfl, rfl⟩
        simp
  | cons r0 tail =>
      cases tail with
      | nil =>
          rw [hfil] at h
          by_cases hany : db.any (fun r => !(r.rt_id == rtId) && r.submission == some sub) = true
          · rw [if_pos hany] at h
            simp at h
          · rw [if_neg hany] at h
            simp only [Except.ok.injEq, Prod.mk.injEq] at h
            obtain ⟨hdb, hc⟩ := h
            subst hdb
            have hr0 : r0 ∈ db.filter (fun r => r.rt_id == rtId) := by
              rw [hfil]
              exact List.mem_singleton_self _
            rw [List.mem_filter] at hr0
            refine ⟨linkRow rtId sub r0, List.mem_map_of_mem _ hr0.1, ?_, ?_⟩
            · rw [linkRow_rt]
              exact beq_iff_eq.mp hr0.2
            · have hb := hr0.2
              simp [linkRow, hb]
      | cons r1 tail2 =>
          rw [hfil] at h
          simp at h

/-- A successful upsert preserves the linkage invariant. -/
theorem uoc_noDupLinks :
    ∀ (db : List TicketRowM) (rtId sub : Nat) (t : Int) (db2 : List TicketRowM) (c : Bool),
      noDupLinks db → update_or_create db rtId sub t = .ok (db2, c) → noDupLinks db2 := by
  intro db rtId sub t db2 c hnd h
  unfold update_or_create at h
  cases hfil : db.filter (fun r => r.rt_id == rtId) with
  | nil =>
      rw [hfil] at h
      by_cases hany : db.any (fun r => r.submission == some sub) = true
      · rw [if_pos hany] at h
        simp at h
      · rw [if_neg hany] at h
        simp only [Except.ok.injEq, Prod.mk.injEq] at h
        obtain ⟨hdb, hc⟩ := h
        subst hdb
        have hnolink : ∀ r ∈ db, ¬(r.submission = some sub) := by
          intro r hr habs
          have hs := List.any_eq_false.mp (Bool.not_eq_true _ ▸ hany) r hr
          exact hs (by rw [habs]; simp)
        intro r1 h1 r2 h2 s hs1 hs2
        rw [List.mem_append] at h1 h2
        rcases h1 with h1 | h1 <;> rcases h2 with h2 | h2
        · exact hnd r1 h1 r2 h2 s hs1 hs2
        · rw [List.mem_singleton] at h2
          subst h2
          have hsub : s = sub := by
            have hx := hs2
            simp at hx
            exact hx.symm
          subst hsub
          exact absurd hs1 (hnolink r1 h1)
        · rw [List.mem_singleton] at h1
          subst h1
          have hsub : s = sub := by
            have hx := hs1
            simp at hx
            exact hx.symm
          subst hsub
          exact absurd hs2 (hnolink r2 h2)
        · rw [List.mem_singleton] at h1 h2
          subst h1
          subst h2
          rfl
  | cons r0 tail =>
      cases tail with
      | nil =>
          rw [hfil] at h
          by_cases hany : db.any (fun r => !(r.rt_id == rtId) && r.submission == some sub) = true
          · rw [if_pos hany] at h
            simp at h
          · rw [if_neg hany] at h
            simp only [Except.ok.injEq, Prod.mk.injEq] at h
            obtain ⟨hdb, hc⟩ := h
            subst hdb
            have hq : ∀ r ∈ db, (r.rt_id == rtId) = false → ¬(r.submission = some sub) := by
              intro r hr hrt habs
              have hs := List.any_eq_false.mp (Bool.not_eq_true _ ▸ hany) r hr
              apply hs
              rw [hrt, habs]
              simp
            intro r1 h1 r2 h2 s hs1 hs2
            rw [List.mem_map] at h1 h2
            obtain ⟨a1, ha1, he1⟩ := h1
            obtain ⟨a2, ha2, he2⟩ := h2
            subst he1
            subst he2
            rw [linkRow_rt, linkRow_rt]
            by_cases hp1 : (a1.rt_id == rtId) = true <;>
              by_cases hp2 : (a2.rt_id == rtId) = true
            · rw [beq_iff_eq.mp hp1, beq_iff_eq.mp hp2]
            · have hpf2 : (a2.rt_id == rtId) = false := Bool.not_eq_true _ ▸ hp2
              rw [linkRow_of_ne sub hpf2] at hs2
              have h1sub : s = sub := by
                rw [show linkRow rtId sub a1 = { a1 with submission := some sub } from by
                  simp [linkRow, hp1]] at hs1
                simp at hs1
                exact hs1.symm
              subst h1sub
              exact absurd hs2 (hq a2 ha2 hpf2)
            · have hpf1 : (a1.rt_id == rtId) = false := Bool.not_eq_true _ ▸ hp1
              rw [linkRow_of_ne sub hpf1] at hs1
              have h2sub : s = sub := by
                rw [show linkRow rtId sub a2 = { a2 with submission := some sub } from by
                  simp [linkRow, hp2]] at hs2
                simp at hs2
                exact hs2.symm
              subst h2sub
              exact absurd hs1 (hq a1 ha1 hpf1)
            · have hpf1 : (a1.rt_id == rtId) = false := Bool.not_eq_true _ ▸ hp1
              have hpf2 : (a2.rt_id == rtId) = false := Bool.not_eq_true _ ▸ hp2
              rw [linkRow_of_ne sub hpf1] at hs1
              rw [linkRow_of_ne sub hpf2] at hs2
              exact hnd a1 ha1 a2 ha2 s hs1 hs2
      | cons r1 tail2 =>
          rw [hfil] at h
          simp at h

/-- One loop iteration of the reconciliation pass preserves the linkage
invariant of the live table. -/
theorem syncQueueStep_noDup (settings : EventSettingsM) (subs : List SubmissionM)
    (snap : Nat → Option TicketRowM) (tNow : Int) (st : SyncState) (rt : RTRemoteTicket)
    (h : noDupLinks st.db) : noDupLinks (syncQueueStep settings subs snap tNow st rt).db := by
  unfold syncQueueStep
  repeat' split
  all_goals try exact h
  all_goals
    rename_i heq2 hlast
    exact uoc_noDupLinks _ _ _ _ _ _ h heq2

/-- Folding the loop over any remote queue preserves the linkage
invariant. -/
theorem syncQueueFold_noDup :
    ∀ (remote : List RTRemoteTicket) (settings : EventSettingsM) (subs : List SubmissionM)
      (snap : Nat → Option TicketRowM) (tNow : Int) (st : SyncState),
      noDupLinks st.db →
      noDupLinks ((remote.foldl (syncQueueStep settings subs snap tNow) st).db)
  | [], _, _, _, _, _, h => h
  | rt :: rest, settings, subs, snap, tNow, st, h =>
      syncQueueFold_noDup rest settings subs snap tNow _
        (syncQueueStep_noDup settings subs snap tNow st rt h)

/-- Soundness of the decisions of the periodic loop: a stale pull happened
only when `needs_sync` held at the observed clock reading, a fresh skip
only when it did not, and an enabled never-stamped ticket that was reached
was always pulled. -/
theorem runPeriodic_mem :
    ∀ (clock : Nat → Int) (start : Int) (ts : List PeriodicTicket) (k : Nat)
      (t : PeriodicTicket) (d : PullDecision),
      (t, d) ∈ (runPeriodic clock start ts k).1 →
      ((∀ v, d = .pulledStale v → needs_sync v t = true) ∧
       (∀ v, d = .skippedFresh v → needs_sync v t = false) ∧
       (t.eventEnabled = true → t.sync_timestamp = none → d = .pulledNull)) := by
  intro clock start ts
  induction ts with
  | nil =>
      intro k t d h
      simp [runPeriodic] at h
  | cons t0 rest ih =>
      intro k t d h
      simp only [runPeriodic] at h
      by_cases hb : clock k - start > 60
      · rw [if_pos hb] at h
        simp at h
      · rw [if_neg hb] at h
        by_cases hen : t0.eventEnabled = true
        · rw [if_pos hen] at h
          cases hts : t0.sync_timestamp with
          | none =>
              simp only [hts] at h
              rcases List.mem_cons.mp h with h | h
              · simp only [Prod.mk.injEq] at h
                obtain ⟨rfl, rfl⟩ := h
                refine ⟨?_, ?_, fun _ _ => rfl⟩
                · intro v hv
                  exact absurd hv (by simp)
                · intro v hv
                  exact absurd hv (by simp)
              · exact ih (k + 2) t d h
          | some tsv =>
              simp only [hts] at h
              by_cases hn : clock (k + 1) - tsv > 60 * t0.syncIntervalMinutes
              · rw [if_pos hn] at h
                rcases List.mem_cons.mp h with h | h
                · simp only [Prod.mk.injEq] at h
                  obtain ⟨rfl, rfl⟩ := h
                  refine ⟨?_, ?_, ?_⟩
                  · intro v hv
                    have hveq : clock (k + 1) = v := by
                      injection hv
                    subst hveq
                    simp [needs_sync, hts]
                    exact hn
                  · intro v hv
                    exact absurd hv (by simp)
                  · intro _ habs
                    rw [hts] at habs
                    exact absurd habs (by simp)
                · exact ih (k + 3) t d h
              · rw [if_neg hn] at h
                rcases List.mem_cons.mp h with h | h
                · simp only [Prod.mk.injEq] at h
                  obtain ⟨rfl, rfl⟩ := h
                  refine ⟨?_, ?_, ?_⟩
                  · intro v hv
                    exact absurd hv (by simp)
                  · intro v hv
                    have hveq : clock (k + 1) = v := by
                      injection hv
                    subst hveq
                    simp [needs_sync, hts]
                    omega
                  · intro _ habs
                    rw [hts] at habs
                    exact absurd habs (by simp)
                · exact ih (k + 2) t d h
        · rw [if_neg hen] at h
          rcases List.mem_cons.mp h with h | h
          · simp only [Prod.mk.injEq] at h
            obtain ⟨rfl, rfl⟩ := h
            refine ⟨?_, ?_, ?_⟩
            · intro v hv
              exact absurd hv (by simp)
            · intro v hv
              exact absurd hv (by simp)
            · intro habs _
              exact absurd habs hen
          · exact ih (k + 1) t d h

/-- Structure of a periodic run: the iterated list splits into the
processed prefix and the untouched remainder, and a non-empty remainder
means the run aborted at a clock reading past the one-minute budget. -/
theorem runPeriodic_split :
    ∀ (clock : Nat → Int) (start : Int) (ts : List PeriodicTicket) (k : Nat),
      ts = (runPeriodic clock start ts k).1.map Prod.fst ++ (runPeriodic clock start ts k).2.1 ∧
      ((runPeriodic clock start ts k).2.1 ≠ [] →
        ∃ v, (runPeriodic clock start ts k).2.2 = some v ∧ v - start > 60) := by
  intro clock start ts
  induction ts with
  | nil =>
      intro k
      exact ⟨rfl, fun habs => absurd rfl habs⟩
  | cons t0 rest ih =>
      intro k
      simp only [runPeriodic]
      by_cases hb : clock k - start > 60
      · rw [if_pos hb]
        exact ⟨rfl, fun _ => ⟨clock k, rfl, hb⟩⟩
      · rw [if_neg hb]
        by_cases hen : t0.eventEnabled = true
        · rw [if_pos hen]
          cases hts : t0.sync_timestamp with
          | none =>
              simp only [hts]
              refine ⟨?_, (ih (k + 2)).2⟩
              simp only [List.map_cons, List.cons_append]
              exact congrArg (t0 :: ·) (ih (k + 2)).1
          | some tsv =>
              simp only [hts]
              by_cases hn : clock (k + 1) - tsv > 60 * t0.syncIntervalMinutes
              · rw [if_pos hn]
                refine ⟨?_, (ih (k + 3)).2⟩
                simp only [List.map_cons, List.cons_append]
                exact congrArg (t0 :: ·) (ih (k + 3)).1
              · rw [if_neg hn]
                refine ⟨?_, (ih (k + 2)).2⟩
                simp only [List.map_cons, List.cons_append]
                exact congrArg (t0 :: ·) (ih (k + 2)).1
        · rw [if_neg hen]
          refine ⟨?_, (ih (k + 1)).2⟩
          simp only [List.map_cons, List.cons_append]
          exact congrArg (t0 :: ·) (ih (k + 1)).1

/-! ## Claim theorems -/

/-- C9: `requestors` produces exactly one formatted string per user,
preserving input order and without deduplication: the entry at every
position is determined by the user at that position alone, as
`name.replace("@", "(at)") ++ " <" ++ email ++ ">"`, no at sign survives
the display-name replacement, and the concrete example from the
specification evaluates as stated. -/
theorem requestors_spec :
    (∀ (us : List UserM) (i : Nat),
        (requestors us)[i]? =
          (us[i]?).map (fun u => replaceAtSign u.name ++ " <" ++ u.email ++ ">"))
    ∧ (∀ us : List UserM, (requestors us).length = us.length)
    ∧ (∀ s : String, '@' ∉ (replaceAtSign s).data)
    ∧ requestors [{ name := "A@B", email := "a@b.com" }] = ["A(at)B <a@b.com>"] := by
  refine ⟨?_, ?_, replaceAtSign_no_at, ?_⟩
  · intro us i
    simp [requestors]
  · intro us
    simp [requestors]
  · rfl

/-- C6: `push` on a ticket with no linked submission is a no-op issuing no
remote call and scheduling no task; on a linked ticket it issues exactly
one `edit_ticket` with the subject, requestor list and the two configured
custom fields from the current submission, schedules one asynchronous
pull task, and never issues a `get_ticket` (it does not re-read what it
wrote). -/
theorem push_spec :
    ∀ (settings : EventSettingsM) (eventPk : Nat) (t : TicketM),
      (t.submission = none → push settings eventPk t = ([], [])) ∧
      (∀ sub, t.submission = some sub →
        push settings eventPk t =
          ([.editTicket t.rt_id (some (requestors sub.speakers)) (some sub.title) none
              (some [(settings.custom_field_id, sub.code),
                     (settings.custom_field_state, sub.state)])],
           [.ticketPullTask eventPk t.pk])) ∧
      (∀ c ∈ (push settings eventPk t).1, ∀ i, c ≠ .getTicket i) := by
  intro s ev t
  refine ⟨?_, ?_, ?_⟩
  · intro h
    simp [push, h]
  · intro sub h
    simp [push, h]
  · intro c hc i
    cases ht : t.submission with
    | none => simp [push, ht] at hc
    | some sub =>
        simp [push, ht] at hc
        subst hc
        simp

/-- Witness for C6: both branches of `push_spec` applied to concrete
tickets. -/
theorem push_spec_witness :
    push settingsX 3 tNoSub = ([], []) ∧
    push settingsX 3 tSub =
      ([.editTicket 11 (some (requestors sub0.speakers)) (some sub0.title) none
          (some [(settingsX.custom_field_id, sub0.code),
                 (settingsX.custom_field_state, sub0.state)])],
       [.ticketPullTask 3 2]) :=
  ⟨(push_spec settingsX 3 tNoSub).1 rfl, (push_spec settingsX 3 tSub).2.1 sub0 rfl⟩

/-- C2: once the initial snapshot succeeded, whatever the outcomes of the
intermediate edit, reply/comment and local save steps, both
`add_mail_to_ticket` and `add_comment_to_ticket` issue, as their final
remote call, an `edit_ticket` restoring the snapshotted
Requestor/Subject/Status — also in runs that propagate an error. -/
theorem restore_always_issued :
    (∀ (settings : EventSettingsM) (ticket : TicketM) (mail : MailM)
        (st : MailLocalState) (tNow : Int) (o : MailOracle) (old : RTSnapshot),
      o.getTicket = .ok old →
      (add_mail_to_ticket settings ticket mail st tNow o).trace.getLast? =
        some (.editTicket ticket.rt_id (some old.requestor) (some old.subject)
          (some old.status) none)) ∧
    (∀ (ticket : TicketM) (commentText : String) (richText : String → String)
        (o : CommentOracle) (old : RTSnapshot),
      o.getTicket = .ok old →
      (add_comment_to_ticket ticket commentText richText o).1.getLast? =
        some (.editTicket ticket.rt_id (some old.requestor) (some old.subject)
          (some old.status) none)) := by
  constructor
  · intro s t m st n o old h
    simp only [add_mail_to_ticket, h]
    exact List.getLast?_concat _
  · intro t ct rt o old h
    simp only [add_comment_to_ticket, h]
    exact List.getLast?_concat _

/-- Witness for C2: the restore edit is the final call in a concrete
successful run of each operation. -/
theorem restore_always_issued_witness :
    (add_mail_to_ticket settingsX tSub mail0 st0 0 oracleOkM).trace.getLast? =
      some (.editTicket 11 (some old0.requestor) (some old0.subject) (some old0.status) none) ∧
    (add_comment_to_ticket tSub "c" (fun s => s) oracleOkC).1.getLast? =
      some (.editTicket 11 (some old0.requestor) (some old0.subject) (some old0.status) none) :=
  ⟨restore_always_issued.1 settingsX tSub mail0 st0 0 oracleOkM old0 rfl,
   restore_always_issued.2 tSub "c" (fun s => s) oracleOkC old0 rfl⟩

/-- C3 counterexample: in a run of `add_mail_to_ticket` where the reply
step raises `transport 1` and the restoration edit raises `transport 2`,
the caller observes `transport 2` — the restoration-step error — and not
the original failure, contradicting the claim: the bare `finally:` block
re-raises the restoration exception, which replaces the primary one, and
nothing is logged. -/
theorem restore_error_masks_primary_cex :
    (add_mail_to_ticket settingsX tSub mail0 st0 0 oracleMask).outcome =
      .error (.transport 2) ∧
    (add_mail_to_ticket settingsX tSub mail0 st0 0 oracleMask).outcome ≠
      .error (.transport 1) := by
  constructor
  · rfl
  · intro h
    rw [show (add_mail_to_ticket settingsX tSub mail0 st0 0 oracleMask).outcome =
          Except.error (RtErr.transport 2) from rfl] at h
    injection h with h2
    injection h2 with h3
    exact absurd h3 (by decide)

/-- C3 (amended): when the restoration step succeeds, the caller of
`add_mail_to_ticket` or `add_comment_to_ticket` observes the original
primary-step error; but when the restoration step itself raises, the
restoration error replaces the primary error visible to the caller. -/
theorem restore_error_replacement :
    (∀ (settings : EventSettingsM) (ticket : TicketM) (mail : MailM)
        (st : MailLocalState) (tNow : Int) (o : MailOracle) (old : RTSnapshot) (e : RtErr),
      o.getTicket = .ok old → o.restoreErr = none →
      (o.editErr = some e ∨ (o.editErr = none ∧ o.replyErr = some e)) →
      (add_mail_to_ticket settings ticket mail st tNow o).outcome = .error e) ∧
    (∀ (settings : EventSettingsM) (ticket : TicketM) (mail : MailM)
        (st : MailLocalState) (tNow : Int) (o : MailOracle) (old : RTSnapshot) (e2 : RtErr),
      o.getTicket = .ok old → o.restoreErr = some e2 →
      (add_mail_to_ticket settings ticket mail st tNow o).outcome = .error e2) ∧
    (∀ (ticket : TicketM) (commentText : String) (richText : String → String)
        (o : CommentOracle) (old : RTSnapshot) (e : RtErr),
      o.getTicket = .ok old → o.restoreErr = none → o.commentErr = some e →
      (add_comment_to_ticket ticket commentText richText o).2 = .error e) ∧
    (∀ (ticket : TicketM) (commentText : String) (richText : String → String)
        (o : CommentOracle) (old : RTSnapshot) (e2 : RtErr),
      o.getTicket = .ok old → o.restoreErr = some e2 →
      (add_comment_to_ticket ticket commentText richText o).2 = .error e2) := by
  refine ⟨?_, ?_, ?_, ?_⟩
  · intro s t m st n o old e hget hres hprim
    rcases hprim with he | ⟨he, hr⟩
    · simp [add_mail_to_ticket, hget, hres, he]
    · simp [add_mail_to_ticket, hget, hres, he, hr]
  · intro s t m st n o old e2 hget hres
    simp [add_mail_to_ticket, hget, hres]
  · intro t ct rt o old e hget hres hc
    simp [add_comment_to_ticket, hget, hres, hc]
  · intro t ct rt o old e2 hget hres
    simp [add_comment_to_ticket, hget, hres]

/-- Witness for C3 (amended): concrete runs of both operations, one where
only the primary step fails and the restore succeeds, and one where the
restore also fails. -/
theorem restore_error_replacement_witness :
    (add_mail_to_ticket settingsX tSub mail0 st0 0 oracleReplyFail).outcome =
      .error (.transport 1) ∧
    (add_mail_to_ticket settingsX tSub mail0 st0 0 oracleMask).outcome =
      .error (.transport 2) ∧
    (add_comment_to_ticket tSub "c" (fun s => s) oracleCommentFail).2 =
      .error (.transport 3) ∧
    (add_comment_to_ticket tSub "c" (fun s => s) oracleCommentMask).2 =
      .error (.transport 4) :=
  ⟨restore_error_replacement.1 settingsX tSub mail0 st0 0 oracleReplyFail old0
      (.transport 1) rfl rfl (Or.inr ⟨rfl, rfl⟩),
   restore_error_replacement.2.1 settingsX tSub mail0 st0 0 oracleMask old0
      (.transport 2) rfl rfl,
   restore_error_replacement.2.2.1 tSub "c" (fun s => s) oracleCommentFail old0
      (.transport 3) rfl rfl rfl,
   restore_error_replacement.2.2.2 tSub "c" (fun s => s) oracleCommentMask old0
      (.transport 4) rfl rfl⟩

/-- C10: if the remote edit or the reply step of `add_mail_to_ticket`
raises, the persisted local state is unchanged — the mail is not marked
sent and is not added to the association of the ticket; and the sent stamp
can change only in runs where both the edit and the reply succeeded. -/
theorem mail_local_state_on_error :
    ∀ (settings : EventSettingsM) (ticket : TicketM) (mail : MailM)
      (st : MailLocalState) (tNow : Int) (o : MailOracle) (old : RTSnapshot),
      o.getTicket = .ok old →
      ((∀ e, o.editErr = some e →
          (add_mail_to_ticket settings ticket mail st tNow o).state = st) ∧
       (∀ e, o.editErr = none → o.replyErr = some e →
          (add_mail_to_ticket settings ticket mail st tNow o).state = st) ∧
       ((add_mail_to_ticket settings ticket mail st tNow o).state.mailSent ≠ st.mailSent →
          o.editErr = none ∧ o.replyErr = none)) := by
  intro s t m st n o old hget
  refine ⟨?_, ?_, ?_⟩
  · intro e he
    simp [add_mail_to_ticket, hget, he]
  · intro e he hr
    simp [add_mail_to_ticket, hget, he, hr]
  · intro hchanged
    cases he : o.editErr with
    | some e => exact absurd (by simp [add_mail_to_ticket, hget, he]) hchanged
    | none =>
        cases hr : o.replyErr with
        | some e => exact absurd (by simp [add_mail_to_ticket, hget, he, hr]) hchanged
        | none => exact ⟨rfl, rfl⟩

/-- Witness for C10: concrete failing-edit and failing-reply runs leave
the local state untouched. -/
theorem mail_local_state_on_error_witness :
    (add_mail_to_ticket settingsX tSub mail0 st0 0 oracleReplyFail).state = st0 ∧
    (add_mail_to_ticket settingsX tSub mail0 st0 0 oracleEditFail).state = st0 :=
  ⟨(mail_local_state_on_error settingsX tSub mail0 st0 0 oracleReplyFail old0 rfl).2.1
      (.transport 1) rfl rfl,
   (mail_local_state_on_error settingsX tSub mail0 st0 0 oracleEditFail old0 rfl).1
      (.transport 9) rfl⟩

/-- C4 (amended): `pull` stamps `sync_timestamp` with the pull-time
clock reading exactly when the remote fetch succeeds — on a failed fetch
the row is unchanged in every field and the error propagates — and a null
`sync_timestamp` implies that no pull for the row ever succeeded. The
converse direction of the original claim fails, see the counterexample:
row creation itself stamps the column. -/
theorem pull_sync_timestamp :
    (∀ (t : TicketRowM) (e : RtErr) (n : Int), pull t (.error e) n = (t, .error e)) ∧
    (∀ (t : TicketRowM) (rt : RemoteTicketData) (n : Int),
      (pull t (.ok rt) n).1.sync_timestamp = some n ∧ (pull t (.ok rt) n).2 = .ok () ∧
      (pull t (.ok rt) n).1.subject = rt.subject ∧
      (pull t (.ok rt) n).1.status = rt.status ∧
      (pull t (.ok rt) n).1.queue = rt.queueName) ∧
    (∀ (t0 : TicketRowM) (ops : List (Except RtErr RemoteTicketData × Int)),
      t0.sync_timestamp = none → (runPulls t0 ops).sync_timestamp = none →
      hasSuccessfulPull ops = false) := by
  refine ⟨fun t e n => rfl, fun t rt n => ⟨rfl, rfl, rfl, rfl, rfl⟩, ?_⟩
  intro t0 ops
  induction ops generalizing t0 with
  | nil => intro _ _; rfl
  | cons op rest ih =>
      intro h0 h1
      obtain ⟨f, n⟩ := op
      cases f with
      | error e =>
          have : hasSuccessfulPull rest = false := ih t0 h0 h1
          simp [hasSuccessfulPull] at this ⊢
          exact this
      | ok rt =>
          obtain ⟨y, hy⟩ :=
            runPulls_stamped rest (pull t0 (.ok rt) n).1 n rfl
          rw [show runPulls t0 ((Except.ok rt, n) :: rest) =
                runPulls (pull t0 (.ok rt) n).1 rest from rfl] at h1
          rw [h1] at hy
          exact absurd hy (by simp)

/-- Witness for C4: a concrete row that was never stamped and a single
failed pull — the theorem concludes that the history holds no successful
pull. -/
theorem pull_sync_timestamp_witness :
    hasSuccessfulPull [(Except.error (RtErr.transport 1), 5)] = false :=
  pull_sync_timestamp.2.2
    { rt_id := 5, submission := none, subject := "", status := "", queue := "",
      sync_timestamp := none }
    [(.error (.transport 1), 5)] rfl rfl

/-- C4 counterexample: the claim asserts `sync_timestamp` is null exactly
when no pull has ever succeeded. Because the column is declared with
`auto_now_add=True`, the row created by `update_or_create` for remote
ticket 5 at time 7 — with no pull operations whatsoever — already carries
`sync_timestamp = some 7`, refuting the only-if direction. -/
theorem sync_timestamp_nonnull_without_pull_cex :
    update_or_create ([] : List TicketRowM) 5 1 7 =
      .ok ([{ rt_id := 5, submission := some 1, subject := "", status := "", queue := "",
              sync_timestamp := some 7 }], true) ∧
    hasSuccessfulPull [] = false ∧
    some (7 : Int) ≠ (none : Option Int) :=
  ⟨rfl, rfl, by decide⟩

/-- C1 (amended): when the submission-code custom field of a remote
ticket resolves to a submission that the start-of-pass snapshot records as
linked to a different remote id, the loop iteration only appends a
conflict warning — the table, the counters and the pushed list are
untouched; and a full pass never leaves one submission linked by rows
with two distinct remote ids. The claim as written further asserts that
an existing link is never overwritten; that part fails, see the
counterexample: the guard is keyed on the submission side only, so a
remote ticket whose own local row is linked to a different submission
silently re-points that row. -/
theorem sync_queue_conflict_policy :
    (∀ (settings : EventSettingsM) (subs : List SubmissionM)
        (snap : Nat → Option TicketRowM) (tNow : Int) (st : SyncState)
        (rt : RTRemoteTicket) (pid : String) (sub : SubmissionM) (linked : TicketRowM),
      st.err = none →
      get_custom_field rt.customFields settings.custom_field_id = some pid →
      pid ≠ "" →
      submissionsByCode subs pid = some sub →
      snap sub.id = some linked →
      (linked.rt_id == rt.id) = false →
      syncQueueStep settings subs snap tNow st rt =
        { st with logs := st.logs ++ [.warnConflict rt.id pid linked.rt_id] }) ∧
    (∀ (settings : EventSettingsM) (subs : List SubmissionM) (db0 : List TicketRowM)
        (remote : List RTRemoteTicket) (tNow : Int),
      noDupLinks db0 → noDupLinks ((sync_queue settings subs db0 remote tNow).db)) := by
  constructor
  · intro settings subs snap tNow st rt pid sub linked herr hg hpid hsub hsnap hne
    simp [syncQueueStep, herr, hg, hpid, hsub, hsnap, hne]
  · intro settings subs db0 remote tNow h
    exact syncQueueFold_noDup remote settings subs _ tNow _ h

/-- Witness for C1: a concrete conflicting remote ticket is skipped with
exactly one conflict warning, and a concrete pass preserves the linkage
invariant. -/
theorem sync_queue_conflict_policy_witness :
    syncQueueStep settingsX subsX snapW 7 stY rtX =
      { stY with logs := stY.logs ++ [.warnConflict 5 "A" 9] } ∧
    noDupLinks ((sync_queue settingsX subsX [rowY] remX 7).db) :=
  ⟨sync_queue_conflict_policy.1 settingsX subsX snapW 7 stY rtX "A" subA rowY rfl rfl
      (by decide) rfl rfl rfl,
   sync_queue_conflict_policy.2 settingsX subsX [rowY] remX 7 (by
      intro r1 h1 r2 h2 s hs1 hs2
      rw [List.mem_singleton] at h1 h2
      subst h1
      subst h2
      rfl)⟩

/-- C1 counterexample: the table links remote ticket 5 to submission 2;
the queue holds remote ticket 5 whose custom field names submission 1,
which is unlinked. The pass re-points the row of remote id 5 from
submission 2 to submission 1 and emits no warning at all: the existing
link is overwritten by a later conflicting claim, refuting the
never-overwritten part of the claim. -/
theorem sync_queue_overwrite_cex :
    (sync_queue settingsX subsX [rowX] remX 7).db =
      [{ rt_id := 5, submission := some 1, subject := "s", status := "open", queue := "Q",
         sync_timestamp := some 0 }] ∧
    (sync_queue settingsX subsX [rowX] remX 7).logs = [] ∧
    rowX.submission = some 2 :=
  ⟨rfl, rfl, rfl⟩

/-- C5 (amended): updating the existing row of a given remote id is
idempotent — re-running a successful upsert returns the identical table
and reports an update — and a successful upsert always leaves the remote
id linked to the resolved submission. The claim as written further
asserts that an upsert whose remote id is already linked to a different
submission is a no-op with a warning; that part fails, see the
counterexample: the upsert overwrites the submission link of the row. -/
theorem update_or_create_spec :
    (∀ (db : List TicketRowM) (rtId sub : Nat) (t t2 : Int) (db2 : List TicketRowM) (c : Bool),
      update_or_create db rtId sub t = .ok (db2, c) →
      update_or_create db2 rtId sub t2 = .ok (db2, false)) ∧
    (∀ (db : List TicketRowM) (rtId sub : Nat) (t : Int) (db2 : List TicketRowM) (c : Bool),
      update_or_create db rtId sub t = .ok (db2, c) →
      ∃ r ∈ db2, r.rt_id = rtId ∧ r.submission = some sub) :=
  ⟨uoc_idempotent, uoc_links⟩

/-- Witness for C5: the relinking upsert on the concrete table, run a
second time, returns the identical table; and the concrete result holds a
row linking remote id 5 to submission 1. -/
theorem update_or_create_spec_witness :
    update_or_create [{ rowX with submission := some 1 }] 5 1 8 =
      .ok ([{ rowX with submission := some 1 }], false) ∧
    ∃ r ∈ [{ rowX with submission := some 1 }], r.rt_id = 5 ∧ r.submission = some 1 :=
  ⟨update_or_create_spec.1 [rowX] 5 1 7 8 [{ rowX with submission := some 1 }] false rfl,
   update_or_create_spec.2 [rowX] 5 1 7 [{ rowX with submission := some 1 }] false rfl⟩

/-- C5 counterexample: remote id 5 is already linked to submission 2;
upserting it with submission 1 is not a no-op — the row is silently
relinked to submission 1 and the call reports a successful update, with
no error and no warning. -/
theorem update_or_create_relink_cex :
    update_or_create [rowX] 5 1 7 =
      .ok ([{ rt_id := 5, submission := some 1, subject := "s", status := "open", queue := "Q",
              sync_timestamp := some 0 }], false) ∧
    rowX.submission = some 2 ∧ rowX.submission ≠ some 1 :=
  ⟨rfl, rfl, by decide⟩

/-- C7: for every ticket the periodic pass iterated over, a stale pull
happened only when `needs_sync` held at the observed current time — so a
ticket whose `sync_timestamp` lies within the configured minimum interval
of the current time is never pulled (`skippedFresh` decisions are exactly
the `needs_sync`-false cases) — and a reached ticket of an enabled event
whose `sync_timestamp` is null is always pulled. -/
theorem periodic_pull_interval_policy :
    ∀ (clock : Nat → Int) (db : List PeriodicTicket) (t : PeriodicTicket) (d : PullDecision),
      (t, d) ∈ (pretalx_rt_periodic_pull clock db).1 →
      ((∀ v, d = .pulledStale v → needs_sync v t = true) ∧
       (∀ v, d = .skippedFresh v → needs_sync v t = false) ∧
       (t.eventEnabled = true → t.sync_timestamp = none → d = .pulledNull)) := by
  intro clock db t d h
  exact runPeriodic_mem clock (clock 0) (sortByStaleness db) 1 t d h

/-- Witness for C7: a concrete pass over one enabled, never-synced ticket
records a null-timestamp pull, and the theorem characterizes it. -/
theorem periodic_pull_interval_policy_witness :
    (∀ v, PullDecision.pulledNull = .pulledStale v → needs_sync v tickW = true) ∧
    (∀ v, PullDecision.pulledNull = .skippedFresh v → needs_sync v tickW = false) ∧
    (tickW.eventEnabled = true → tickW.sync_timestamp = none →
      PullDecision.pulledNull = PullDecision.pulledNull) :=
  periodic_pull_interval_policy clock0 [tickW] tickW .pulledNull (by decide)

/-- C8: the periodic pass iterates exactly the linked tickets, in
ascending `sync_timestamp` order (null first): the iterated order splits
into the processed prefix — pairwise ordered by staleness — and an
untouched remainder, and the remainder is non-empty only when a clock
reading taken between ticket iterations exceeded the one-minute budget,
after which no further ticket is processed. -/
theorem periodic_pull_order_and_budget :
    ∀ (clock : Nat → Int) (db : List PeriodicTicket),
      sortByStaleness db =
        ((pretalx_rt_periodic_pull clock db).1.map Prod.fst ++
          (pretalx_rt_periodic_pull clock db).2.1) ∧
      ((pretalx_rt_periodic_pull clock db).1.map Prod.fst).Pairwise
        (fun a b => tsLe a b = true) ∧
      (∀ t ∈ sortByStaleness db, t.linked = true) ∧
      ((pretalx_rt_periodic_pull clock db).2.1 ≠ [] →
        ∃ v, (pretalx_rt_periodic_pull clock db).2.2 = some v ∧ v - clock 0 > 60) := by
  intro clock db
  have hsorted : (sortByStaleness db).Pairwise (fun a b => tsLe a b = true) :=
    List.sorted_insertionSort _ _
  obtain ⟨hsplit, hbudget⟩ := runPeriodic_split clock (clock 0) (sortByStaleness db) 1
  refine ⟨hsplit, ?_, ?_, hbudget⟩
  · rw [hsplit] at hsorted
    exact (List.pairwise_append.mp hsorted).1
  · intro t ht
    unfold sortByStaleness at ht
    have hperm : t ∈ db.filter (fun x => x.linked) :=
      (List.Perm.mem_iff (List.perm_insertionSort _ _)).mp ht
    exact (List.mem_filter.mp hperm).2

/-- Witness for C8: under a clock that jumps past the budget after the
start reading, the concrete pass processes nothing, leaves the whole
sorted list untouched, and reports the tripping reading. -/
theorem periodic_pull_order_and_budget_witness :
    sortByStaleness [tickW] =
      ((pretalx_rt_periodic_pull clockW [tickW]).1.map Prod.fst ++
        (pretalx_rt_periodic_pull clockW [tickW]).2.1) ∧
    ∃ v, (pretalx_rt_periodic_pull clockW [tickW]).2.2 = some v ∧ v - clockW 0 > 60 :=
  ⟨(periodic_pull_order_and_budget clockW [tickW]).1,
   (periodic_pull_order_and_budget clockW [tickW]).2.2.2 (by decide)⟩

end PretalxRT
